import Mathlib

/-!
Verification of the ndcube coordinate-aware data-cube library: a shallow
embedding of the crop-input sanitization utilities (utils/misc.py), the
uncertainty handling of the sequence plotting paths
(mixins/sequence_plotting.py), and spec-modelled definitions of the
slicing, cropping and coordinate-query machinery whose implementation is
not among the provided sources.
-/

namespace NDCube

/-- A Python exception raised by the library, by numpy or by astropy. -/
inductive PyErr
  | valueError (msg : String)
  | indexError
  deriving DecidableEq

/-! ## Index expressions and shapes (claim C1)

NumPy-style basic indexing restricted to what the spec covers: integers,
slices with nonnegative unit-step bounds, and the Ellipsis. -/

/-- One entry of a normalized index: an integer (drops the axis) or a slice
with optional nonnegative start/stop bounds and unit step. -/
inductive IndexEntry
  | int (i : Nat)
  | slice (start stop : Option Nat)
  deriving DecidableEq

/-- One entry of a raw index expression as passed to `cube.__getitem__`: an
explicit entry or a Python Ellipsis. -/
inductive RawEntry
  | entry (e : IndexEntry)
  | ellipsis
  deriving DecidableEq

/-- Whether a raw entry is the Ellipsis. -/
def RawEntry.isEllipsis : RawEntry → Bool
  | .ellipsis => true
  | .entry _ => false

/-- The number of explicit (non-Ellipsis) entries of a raw index. -/
def countExplicit (raw : List RawEntry) : Nat :=
  (raw.filter (fun e => !e.isEllipsis)).length

/-- Modelled from the spec: section 4.4 says `__getitem__` normalizes the
index to an explicit per-axis tuple, expanding the ellipsis and the missing
trailing axes to full slices; the NDCube implementation is not among the
provided sources. -/
def normalizeIndex : List RawEntry → Nat → List IndexEntry
  | [], ndim => List.replicate ndim (IndexEntry.slice none none)
  | .entry e :: rest, ndim => e :: normalizeIndex rest (ndim - 1)
  | .ellipsis :: rest, ndim =>
      List.replicate (ndim - countExplicit rest) (IndexEntry.slice none none) ++
        normalizeIndex rest (ndim - (ndim - countExplicit rest))

/-- The length of the NumPy basic slice `start:stop` applied to an axis of
size `n` (nonnegative bounds, clamped to the axis size). -/
def sliceLen (n : Nat) (start stop : Option Nat) : Nat :=
  min (stop.getD n) n - min (start.getD 0) n

/-- Applies a normalized per-axis index to a shape: integer entries drop
their axis, slice entries keep it with the clamped slice length. -/
def applyShape : List Nat → List IndexEntry → List Nat
  | shape, [] => shape
  | [], _ :: _ => []
  | _ :: s, .int _ :: idx => applyShape s idx
  | n :: s, .slice a b :: idx => sliceLen n a b :: applyShape s idx

/-- The shape of `data[i]` under NumPy basic indexing, defined directly on
the raw expression: an Ellipsis consumes as many axes as are not matched by
the remaining explicit entries, and axes beyond the end of the expression
are kept whole. -/
def numpyShape : List Nat → List RawEntry → List Nat
  | shape, [] => shape
  | shape, .ellipsis :: rest =>
      shape.take (shape.length - countExplicit rest) ++
        numpyShape (shape.drop (shape.length - countExplicit rest)) rest
  | [], .entry _ :: _ => []
  | _ :: s, .entry (.int _) :: rest => numpyShape s rest
  | n :: s, .entry (.slice a b) :: rest => sliceLen n a b :: numpyShape s rest

/-- The number of non-integer entries of a normalized index: the
dimensionality of the sliced result. -/
def countNonInt (idx : List IndexEntry) : Nat :=
  (idx.filter (fun e => match e with | .int _ => false | .slice _ _ => true)).length

/-- Modelled from the spec: section 4.2 says the sliced WCS wrapper reports
`pixel_n_dim` equal to the number of surviving (non-integer) entries and an
`array_shape` reflecting the sliced geometry; SlicedLowLevelWCS is not among
the provided sources. -/
structure SlicedGeom where
  pixel_n_dim : Nat
  array_shape : List Nat
  deriving DecidableEq

/-- Modelled from the spec: the geometry of `slice_wcs` applied to a
normalized index (spec section 4.2). -/
def slice_wcs_geom (shape : List Nat) (idx : List IndexEntry) : SlicedGeom :=
  ⟨countNonInt idx, applyShape shape idx⟩

/-- Modelled from the spec: the data shape produced by `__getitem__`, which
applies the normalized index to the data array (spec section 4.4). -/
def getitemShape (shape : List Nat) (raw : List RawEntry) : List Nat :=
  applyShape shape (normalizeIndex raw shape.length)

/-- Modelled from the spec: the sliced WCS geometry produced by
`__getitem__`, which slices the WCS by the same normalized index. -/
def getitemWCS (shape : List Nat) (raw : List RawEntry) : SlicedGeom :=
  slice_wcs_geom shape (normalizeIndex raw shape.length)

/-! ## Axis-correlation slicing (claim C2) -/

/-- The low-level WCS metadata relevant to axis-correlation slicing: the
world axis physical types and the world-by-pixel axis correlation matrix
(row w, column p states whether pixel axis p influences world axis w). -/
structure CorrWCS where
  world_axis_physical_types : List String
  axis_correlation_matrix : List (List Bool)
  deriving DecidableEq

/-- The number of world axes of a `CorrWCS`. -/
def CorrWCS.world_n_dim (w : CorrWCS) : Nat := w.world_axis_physical_types.length

/-- Modelled from the spec: section 4.2 says slicing keeps the pixel axes
not dropped by integer indices; a world axis survives exactly when it
correlates with some kept pixel axis, and the correlation matrix restricts
to the surviving world rows and kept pixel columns. SlicedLowLevelWCS is
not among the provided sources. `kept` marks, in pixel order, the pixel
axes surviving the index. -/
def sliceCorrWCS (w : CorrWCS) (kept : List Bool) : CorrWCS :=
  let rows := (w.axis_correlation_matrix.zip w.world_axis_physical_types).filter
      (fun rt => (rt.1.zip kept).any (fun p => p.1 && p.2))
  ⟨rows.map (fun rt => rt.2),
   rows.map (fun rt => ((rt.1.zip kept).filter (fun p => p.2)).map (fun p => p.1))⟩

/-- The pixel dimensionality of a sliced WCS: the number of kept pixel
axes. -/
def slicedPixelNDim (kept : List Bool) : Nat := kept.count true

/-- Modelled from the spec and the ndcube_3d_ln_lt_l test fixture: a 3D
cube whose WCS correlates pixel axes 1 and 2 jointly with helioprojective
latitude/longitude and pixel axis 0 with wavelength. Pixel order is the
reverse of array order; world axes in order wavelength, latitude,
longitude. -/
def wcs3d_ln_lt_l : CorrWCS :=
  ⟨["em.wl", "custom:pos.helioprojective.lat", "custom:pos.helioprojective.lon"],
   [[true, false, false], [false, true, true], [false, true, true]]⟩

/-! ## Crop-input sanitization (claims C3, C4, C5, C6)

Embeds `sanitize_corners` and `sanitize_crop_inputs` from utils/misc.py.
World-coordinate objects in corners are abstracted by a type parameter; a
corner entry is `none` for Python None. -/

/-- A low-level WCS as consumed by the crop machinery: its pixel
dimensionality and — modelled from the spec, section 6, which lists
`world_to_pixel` among the opaque WCS capabilities — the inverse
(world to array index) transform of each pixel axis. -/
structure LowWCS where
  pixel_n_dim : Nat
  world_to_index : Nat → ℚ → Int

/-- The fields of an `ExtraCoords` object read by `sanitize_crop_inputs`:
`wcs.mapping` (the cube array axes covered by the table), `wcs.wcs` (the
table's own WCS) and `len(wcs._ndcube.dimensions)` (the dimensionality of
the owning cube). -/
structure ExtraCoords where
  mapping : List Nat
  wcs : LowWCS
  ndcube_ndim : Nat

/-- The `wcs` argument of `sanitize_crop_inputs`: a high-level WCS or an
`ExtraCoords` table. -/
inductive CropWCS
  | highLevel (w : LowWCS)
  | extra (ec : ExtraCoords)

/-- The WCS returned by `sanitize_crop_inputs`: the input unchanged (no-op
or high-level path), the extra-coords table's own WCS, or a transient
CompoundLowLevelWCS of the table's WCS and a dummy WCS. -/
inductive ResultWCS
  | unchanged (w : CropWCS)
  | ecOwn (w : LowWCS)
  | compound (ec dummy : LowWCS) (mapping : List Nat)

/-- The pixel dimensionality of the returned WCS. Modelled from the spec
for the compound case: section 3 says CompoundLowLevelWCS concatenates its
component WCSes, so its pixel axes are those of both components together
(the CompoundLowLevelWCS implementation is not among the provided
sources). -/
def ResultWCS.pixel_n_dim : ResultWCS → Nat
  | .unchanged (.highLevel w) => w.pixel_n_dim
  | .unchanged (.extra ec) => ec.wcs.pixel_n_dim
  | .ecOwn w => w.pixel_n_dim
  | .compound ec dummy _ => ec.pixel_n_dim + dummy.pixel_n_dim

/-- A corner argument to the crop methods: a Python tuple/list of
coordinate entries, or any non-sequence object. -/
inductive CornerInput (α : Type)
  | seq (entries : List (Option α))
  | scalar (entry : Option α)

/-- The list the corner argument becomes inside `sanitize_corners`:
`list(corner)` for a tuple or list, `[corner]` otherwise. -/
def CornerInput.toList {α : Type} : CornerInput α → List (Option α)
  | .seq l => l
  | .scalar e => [e]

/-- Renders a list of naturals the way Python renders a list of ints, as
the f-string interpolation of `n_coords` does. -/
def pyListString : List Nat → String
  | [] => "[]"
  | n :: rest =>
    "[" ++ toString n ++ String.join (rest.map (fun m => ", " ++ toString m)) ++ "]"

/-- The ValueError message of `sanitize_corners` (utils/misc.py lines
109-110), whose f-string part reports the offending corner lengths. -/
def corner_length_error_msg (n_coords : List Nat) : String :=
  "All corner inputs must have same number of coordinate objects. " ++
    "Lengths of corner objects: " ++ pyListString n_coords

/-- Embeds `sanitize_corners` (utils/misc.py lines 103-111): wraps each
non-sequence input into a one-element list, copies sequence inputs into
fresh lists, and raises a ValueError reporting the corner lengths unless
all corners have the same number of coordinate objects. -/
def sanitize_corners {α : Type} (corners : List (CornerInput α)) :
    Except PyErr (List (List (Option α))) :=
  let corners := corners.map CornerInput.toList
  let n_coords := corners.map List.length
  if n_coords.dedup.length ≠ 1 then
    .error (.valueError (corner_length_error_msg n_coords))
  else
    .ok corners

/-- Embeds the length validation astropy performs when a WCS attribute is
assigned: setting `crpix`, `cdelt`, `crval` or `ctype` of a WCS with
`naxis` axes to a list of a different length raises ValueError. -/
def wcs_set_attr {α : Type} (naxis : Nat) (values : List α) : Except PyErr Unit :=
  if values.length = naxis then .ok ()
  else .error (.valueError "attribute length does not match naxis")

/-- Embeds the dummy-WCS construction of `sanitize_crop_inputs`
(utils/misc.py lines 87-91): `WCS(naxis=len(dummy_axes))` followed by the
assignments `crpix = [1, 1]`, `cdelt = [1, 1]`, `crval = [0, 0]` and
`ctype = ["PIXEL", "PIXEL"]`, each length-checked by astropy against
`naxis`. The resulting dummy WCS is the identity transform on its pixel
axes. -/
def make_dummy_wcs (n_dummy : Nat) : Except PyErr LowWCS := do
  _ ← wcs_set_attr n_dummy [(1 : ℚ), 1]  -- dummy_wcs.wcs.crpix = [1, 1]
  _ ← wcs_set_attr n_dummy [(1 : ℚ), 1]  -- dummy_wcs.wcs.cdelt = [1, 1]
  _ ← wcs_set_attr n_dummy [(0 : ℚ), 0]  -- dummy_wcs.wcs.crval = [0, 0]
  _ ← wcs_set_attr n_dummy ["PIXEL", "PIXEL"]
  .ok ⟨n_dummy, fun _ q => ⌊q⌋⟩

/-- Embeds `sanitize_crop_inputs` (utils/misc.py lines 64-100): sanitizes
the corners, short-circuits with a True no-op flag when every corner entry
is None, and for an `ExtraCoords` source builds a compound WCS with one
dummy pixel axis per cube axis not covered by the table, extending both
corner lists with one None entry per dummy axis. -/
def sanitize_crop_inputs {α : Type} (lower_corner upper_corner : CornerInput α)
    (wcs : CropWCS) :
    Except PyErr (Bool × List (Option α) × List (Option α) × ResultWCS) := do
  let corners ← sanitize_corners [lower_corner, upper_corner]
  let lower := corners.getD 0 []
  let upper := corners.getD 1 []
  -- Quit out early if we are no-op
  if ((lower.map Option.isNone).zip (upper.map Option.isNone)).all
      (fun p => p.1 && p.2) then
    pure (true, lower, upper, .unchanged wcs)
  else
    match wcs with
    | .highLevel w => pure (false, lower, upper, .unchanged (.highLevel w))
    | .extra ec =>
      let dummy_axes := (List.range ec.ndcube_ndim).filter (fun i => i ∉ ec.mapping)
      if dummy_axes.isEmpty then
        pure (false, lower ++ List.replicate dummy_axes.length none,
              upper ++ List.replicate dummy_axes.length none, .ecOwn ec.wcs)
      else do
        let dummy ← make_dummy_wcs dummy_axes.length
        pure (false, lower ++ List.replicate dummy_axes.length none,
              upper ++ List.replicate dummy_axes.length none,
              .compound ec.wcs dummy (ec.mapping ++ dummy_axes))

/-! ## The crop engine (claims C4, C5)

The `NDCube.crop` / `NDCube.crop_by_values` implementation is not among
the provided sources; the index-range computation is modelled from the
spec, section 4.6. -/

/-- A cube as seen by `crop_by_values`: its data shape and its primary
WCS. -/
structure VCube where
  shape : List Nat
  wcs : LowWCS

/-- The smaller of two integers, by explicit comparison (numpy min). -/
def int_min (a b : Int) : Int := if a ≤ b then a else b

/-- The larger of two integers, by explicit comparison (numpy max). -/
def int_max (a b : Int) : Int := if a ≤ b then b else a

/-- Whether the resolved pixel-index window of one axis is invalid: the
upper index below the lower one, or the window entirely out of the array
index range `[0, n)`. -/
def resolved_out_of_range (wcs : LowWCS) (axis n : Nat) (lo hi : ℚ) : Prop :=
  int_max (wcs.world_to_index axis lo) (wcs.world_to_index axis hi) <
      int_min (wcs.world_to_index axis lo) (wcs.world_to_index axis hi) ∨
    int_max (wcs.world_to_index axis lo) (wcs.world_to_index axis hi) < 0 ∨
    (n : Int) ≤ int_min (wcs.world_to_index axis lo) (wcs.world_to_index axis hi)

instance (wcs : LowWCS) (axis n : Nat) (lo hi : ℚ) :
    Decidable (resolved_out_of_range wcs axis n lo hi) := by
  unfold resolved_out_of_range; infer_instance

/-- Modelled from the spec: step (c)-(d) of the Crop Engine (section 4.6)
for one axis: with both corner entries set, the two corners are resolved
through the inverse WCS transform, their minimum and maximum give an
inclusive range turned into an exclusive-end slice, and an invalid or
out-of-range resolved window raises IndexError; an axis with a None corner
entry gets a full slice. -/
def resolve_axis (wcs : LowWCS) (axis n : Nat) :
    Option ℚ → Option ℚ → Except PyErr IndexEntry
  | some lo, some hi =>
    if resolved_out_of_range wcs axis n lo hi then
      .error .indexError
    else
      .ok (IndexEntry.slice
        (some (int_min (wcs.world_to_index axis lo) (wcs.world_to_index axis hi)).toNat)
        (some ((int_max (wcs.world_to_index axis lo)
          (wcs.world_to_index axis hi)).toNat + 1)))
  | _, _ => .ok (IndexEntry.slice none none)

/-- Modelled from the spec: step (c)-(e) of the Crop Engine (section 4.6):
builds the composite index item by resolving every axis in turn. -/
def resolve_crop_item (wcs : LowWCS) : Nat → List Nat → List (Option ℚ) →
    List (Option ℚ) → Except PyErr (List IndexEntry)
  | _, [], _, _ => .ok []
  | axis, n :: shape, lower, upper => do
    let entry ← resolve_axis wcs axis n (lower.headD none) (upper.headD none)
    let rest ← resolve_crop_item wcs (axis + 1) shape lower.tail upper.tail
    pure (entry :: rest)

/-- Modelled from the spec: `crop_by_values` against the cube's primary WCS
(section 4.6): sanitize the inputs, short-circuit to the unchanged cube on
the no-op flag, resolve the corners to an index item and dispatch it to the
indexing protocol (shape level). -/
def crop_by_values (cube : VCube) (lower upper : CornerInput ℚ) :
    Except PyErr VCube := do
  let r ← sanitize_crop_inputs lower upper (.highLevel cube.wcs)
  if r.1 then
    pure cube
  else do
    let item ← resolve_crop_item cube.wcs 0 cube.shape r.2.1 r.2.2.1
    pure ⟨applyShape cube.shape item, cube.wcs⟩

/-- A concrete wavelength WCS used in witnesses: one pixel axis whose
world values at pixels 0..3 are 1.02e-9 .. 1.08e-9 (exact rationals), with
the rounding inverse transform. -/
def wl_wcs : LowWCS :=
  ⟨1, fun _ q => ⌊(q - 102 / 10 ^ 11) / (2 / 10 ^ 11) + 1 / 2⌋⟩

/-! ## Coordinate query engine (claim C7) -/

/-- Modelled from the spec and the test-fixture constants: the linear
pixel-to-world transform of the wavelength axis of ndcube_3d_ln_lt_l, whose
centre values at pixels 0..3 are 1.02e-9, 1.04e-9, 1.06e-9 and 1.08e-9 m
(exact rationals). -/
def wavelength_of_pixel (p : ℚ) : ℚ := 102 / 10 ^ 11 + 2 / 10 ^ 11 * p

/-- Modelled from the spec: section 4.5 says `axis_world_coords_values`
builds the pixel-centre index grid 0..n-1 and maps it through the
pixel-to-world transform; the NDCube implementation is not among the
provided sources. -/
def axis_world_coords_centers (n : Nat) : List ℚ :=
  (List.range n).map (fun k : Nat => wavelength_of_pixel (k : ℚ))

/-- Modelled from the spec: with `edges=True` the grid is the pixel-edge
grid obtained by offsetting the centres by −0.5 and +0.5, giving n+1
values for an axis of n pixels. -/
def axis_world_coords_edges (n : Nat) : List ℚ :=
  (List.range (n + 1)).map (fun k : Nat => wavelength_of_pixel ((k : ℚ) - 1 / 2))

/-! ## Sequence plotting uncertainty handling (claims C9, C10)

Embeds the relevant slices of mixins/sequence_plotting.py. Data values and
uncertainties are abstracted as rationals, units as strings. -/

/-- A sub-cube of an NDCubeSequence as seen by the 1D plotting paths: its
data (a 1D array), its optional unit and its optional uncertainty array. -/
structure SubCube where
  data : List ℚ
  unit : Option String
  uncertainty : Option (List ℚ)
  deriving DecidableEq

/-- Embeds `_get_all_cube_units` (sequence_plotting.py lines 530-552):
returns the unit of each cube in order, raising ValueError at the first
cube whose unit attribute is not set. -/
def _get_all_cube_units : List SubCube → Except PyErr (List String)
  | [] => .ok []
  | cube :: rest =>
    match cube.unit with
    | none => .error (.valueError "cube in sequence does not have unit set.")
    | some u => do
      let us ← _get_all_cube_units rest
      return u :: us

/-- Embeds `_determine_sequence_units` (sequence_plotting.py lines
441-476): `sequence_units` is the per-cube unit list, or None when
`_get_all_cube_units` raises ValueError; when it is set and `unit` is None
the unit of the first cube is taken (raising IndexError on an empty
sequence, as `sequence_units[0]` does); when it is None the returned unit
is None regardless of the caller-supplied unit. -/
def _determine_sequence_units (cubesequence_data : List SubCube)
    (unit : Option String) :
    Except PyErr (Option (List String) × Option String) :=
  match _get_all_cube_units cubesequence_data with
  | .error _ => .ok (none, none)
  | .ok sequence_units =>
    match unit with
    | some u => .ok (some sequence_units, some u)
    | none =>
      match sequence_units with
      | [] => .error .indexError
      | u0 :: us => .ok (some (u0 :: us), some u0)

/-- Embeds the `yerror` computation of `_plot_1D_sequence`
(sequence_plotting.py lines 102-109) in the branch where not every
sub-cube has a unit set: `yerror` is the raw array of per-cube
uncertainties, set to None only when every entry is None; no zero-filling
is performed. -/
def _plot_1D_sequence_yerror (cubes : List SubCube) :
    Option (List (Option (List ℚ))) :=
  let yerror := cubes.map (fun c => c.uncertainty)
  if yerror.all Option.isNone then none else some yerror

/-- Embeds the `yerror` computation of `_plot_2D_sequence_as_1Dline`
(sequence_plotting.py lines 161-174) in the branch where not every
sub-cube has a unit set: None when every entry is None; otherwise, when at
least one entry is None, each None entry is replaced by a zero array of
that sub-cube's length, and the arrays are concatenated. -/
def _plot_2D_sequence_as_1Dline_yerror (cubes : List SubCube) :
    Option (List ℚ) :=
  let yerror := cubes.map (fun c => c.uncertainty)
  if yerror.all Option.isNone then none
  else
    let patched :=
      if yerror.any Option.isNone then
        cubes.map (fun c => c.uncertainty.getD (List.replicate c.data.length 0))
      else
        cubes.map (fun c => c.uncertainty.getD [])
    some patched.flatten

/-! ## Heap model of corner sanitization (claim C8)

A small heap of Python list objects, to state that the crop machinery
never mutates the caller's corner lists: `sanitize_corners` copies each
input into a fresh list, and the in-place extension inside
`sanitize_crop_inputs` writes only to those fresh lists. -/

/-- A heap of Python list objects; addresses index the heap. -/
structure Store (α : Type) where
  heap : List (List α)

/-- Reads the list object at an address. -/
def Store.read {α : Type} (s : Store α) (a : Nat) : List α := s.heap.getD a []

/-- Allocates a fresh list object, returning its address. -/
def Store.alloc {α : Type} (s : Store α) (v : List α) : Store α × Nat :=
  (⟨s.heap ++ [v]⟩, s.heap.length)

/-- Overwrites the list object at an address (in-place mutation). -/
def Store.write {α : Type} (s : Store α) (a : Nat) (v : List α) : Store α :=
  ⟨s.heap.set a v⟩

/-- Extends the list at an address in place, as the Python `+=` on a list
does. -/
def Store.extend {α : Type} (s : Store α) (a : Nat) (tail : List α) : Store α :=
  s.write a (s.read a ++ tail)

/-- Embeds `sanitize_corners` followed by `sanitize_crop_inputs` at the
heap level, for sequence corner arguments passed by reference: the caller
supplies the addresses of its two corner lists; `list(corner)` allocates a
fresh copy of each, and the in-place `+=` extension with the dummy-axis
None entries targets only the fresh addresses. The heap state is returned
both on success and at the point an exception is raised. -/
def sanitize_crop_inputs_heap {α : Type} (s : Store (Option α))
    (lower_addr upper_addr : Nat) (wcs : CropWCS) :
    Store (Option α) × Except PyErr (Bool × Nat × Nat × ResultWCS) :=
  let (s1, la) := s.alloc (s.read lower_addr)
  let (s2, ua) := s1.alloc (s1.read upper_addr)
  let lower := s2.read la
  let upper := s2.read ua
  if lower.length ≠ upper.length then
    (s2, .error (.valueError (corner_length_error_msg [lower.length, upper.length])))
  else if ((lower.map Option.isNone).zip (upper.map Option.isNone)).all
      (fun p => p.1 && p.2) then
    (s2, .ok (true, la, ua, .unchanged wcs))
  else
    match wcs with
    | .highLevel w => (s2, .ok (false, la, ua, .unchanged (.highLevel w)))
    | .extra ec =>
      let dummy_axes := (List.range ec.ndcube_ndim).filter (fun i => i ∉ ec.mapping)
      if dummy_axes.isEmpty then
        ((s2.extend la (List.replicate dummy_axes.length none)).extend ua
            (List.replicate dummy_axes.length none),
         .ok (false, la, ua, .ecOwn ec.wcs))
      else
        match make_dummy_wcs dummy_axes.length with
        | .error e => (s2, .error e)
        | .ok dummy =>
          ((s2.extend la (List.replicate dummy_axes.length none)).extend ua
              (List.replicate dummy_axes.length none),
           .ok (false, la, ua, .compound ec.wcs dummy (ec.mapping ++ dummy_axes)))

/-! ## Theorems -/

/-- Computation rule for the Except monad bind on a success value. -/
theorem except_bind_ok {ε α β : Type} (a : α) (f : α → Except ε β) :
    ((Except.ok a : Except ε α) >>= f) = f a := rfl

/-- Computation rule for the Except monad bind on an error value. -/
theorem except_bind_error {ε α β : Type} (e : ε) (f : α → Except ε β) :
    ((Except.error e : Except ε α) >>= f) = Except.error e := rfl

/-- Computation rule for the Except monad pure. -/
theorem except_pure {ε α : Type} (a : α) :
    (pure a : Except ε α) = Except.ok a := rfl

/-- Closed form of `sanitize_corners` on two corner arguments: success with
the wrapped lists when their lengths agree, a ValueError reporting the two
lengths otherwise. -/
theorem sanitize_corners_two_eq {α : Type} (lower upper : CornerInput α) :
    sanitize_corners [lower, upper] =
      if lower.toList.length = upper.toList.length then
        .ok [lower.toList, upper.toList]
      else
        .error (.valueError (corner_length_error_msg
          [lower.toList.length, upper.toList.length])) := by
  simp only [sanitize_corners, List.map]
  by_cases h : lower.toList.length = upper.toList.length
  · rw [if_pos h]
    rw [List.dedup_cons_of_mem (by simp [h])]
    simp
  · rw [if_neg h]
    rw [List.dedup_cons_of_not_mem (by simp [h])]
    simp [List.dedup_cons_of_not_mem]

/-- The element-wise numpy conjunction of the two None masks, reduced to
the two `all` tests, for corner lists of equal length. -/
theorem zip_isNone_all {α : Type} (l1 l2 : List (Option α)) (h : l1.length = l2.length) :
    (((l1.map Option.isNone).zip (l2.map Option.isNone)).all (fun p => p.1 && p.2))
      = (l1.all Option.isNone && l2.all Option.isNone) := by
  induction l1 generalizing l2 with
  | nil =>
    cases l2 with
    | nil => rfl
    | cons b bs => simp at h
  | cons a as ih =>
    cases l2 with
    | nil => simp at h
    | cons b bs =>
      have hlen : as.length = bs.length := by simpa using h
      simp only [List.map, List.zip_cons_cons, List.all_cons, ih bs hlen]
      cases Option.isNone a <;> cases Option.isNone b <;>
        cases as.all Option.isNone <;> cases bs.all Option.isNone <;> rfl

/-- On all-None corners of equal length, `sanitize_crop_inputs` returns the
True no-op flag with the wrapped corners and the unchanged WCS. -/
theorem sanitize_crop_inputs_all_nones {α : Type} (lower upper : CornerInput α)
    (wcs : CropWCS) (hlen : lower.toList.length = upper.toList.length)
    (h1 : lower.toList.all Option.isNone = true)
    (h2 : upper.toList.all Option.isNone = true) :
    sanitize_crop_inputs lower upper wcs =
      .ok (true, lower.toList, upper.toList, .unchanged wcs) := by
  unfold sanitize_crop_inputs
  rw [sanitize_corners_two_eq, if_pos hlen, except_bind_ok]
  simp only [List.getD_cons_zero, List.getD_cons_succ]
  rw [zip_isNone_all _ _ hlen]
  rw [if_pos (by rw [h1, h2]; rfl)]
  rfl

/-- A run of full slices leaves any shape unchanged. -/
theorem applyShape_replicate_full (shape : List Nat) (k : Nat) :
    applyShape shape (List.replicate k (IndexEntry.slice none none)) = shape := by
  induction k generalizing shape with
  | zero => cases shape <;> rfl
  | succ k ih =>
    cases shape with
    | nil => rfl
    | cons n s =>
      simp only [List.replicate, applyShape, sliceLen, Option.getD]
      rw [ih s]
      simp

/-- A run of `k` full slices followed by an index acts as the identity on
the first `k` axes. -/
theorem applyShape_replicate_append (k : Nat) (shape : List Nat)
    (idx : List IndexEntry) (h : k ≤ shape.length) :
    applyShape shape (List.replicate k (IndexEntry.slice none none) ++ idx) =
      shape.take k ++ applyShape (shape.drop k) idx := by
  induction k generalizing shape with
  | zero => simp
  | succ k ih =>
    cases shape with
    | nil => simp at h
    | cons n s =>
      simp only [List.replicate, List.cons_append, applyShape, sliceLen, Option.getD,
        List.take_succ_cons, List.drop_succ_cons]
      rw [List.append_eq, ih s (Nat.le_of_succ_le_succ h)]
      simp

/-- The normalized per-axis index of the Indexing Protocol computes the
same result shape as NumPy basic indexing applied to the raw
expression. -/
theorem normalized_eq_numpy (raw : List RawEntry) :
    ∀ shape : List Nat, (raw.filter RawEntry.isEllipsis).length ≤ 1 →
      countExplicit raw ≤ shape.length →
      applyShape shape (normalizeIndex raw shape.length) = numpyShape shape raw := by
  induction raw with
  | nil =>
    intro shape h1 h2
    simp only [normalizeIndex, numpyShape]
    exact applyShape_replicate_full shape shape.length
  | cons e rest ih =>
    intro shape h1 h2
    cases e with
    | entry e =>
      cases shape with
      | nil =>
        exfalso
        have hge : 1 ≤ countExplicit (RawEntry.entry e :: rest) := by
          simp [countExplicit, RawEntry.isEllipsis, List.filter]
        simp only [List.length_nil] at h2
        omega
      | cons n s =>
        have h1r : (rest.filter RawEntry.isEllipsis).length ≤ 1 := by
          simp only [List.filter, RawEntry.isEllipsis] at h1
          exact h1
        have h2r : countExplicit rest ≤ s.length := by
          simp only [countExplicit, List.filter, RawEntry.isEllipsis, Bool.not_false,
            List.length_cons, List.length] at h2 ⊢
          omega
        have hn : normalizeIndex (RawEntry.entry e :: rest) (n :: s).length =
            e :: normalizeIndex rest s.length := by
          simp [normalizeIndex]
        rw [hn]
        cases e with
        | int i =>
          simp only [applyShape, numpyShape]
          exact ih s h1r h2r
        | slice a b =>
          simp only [applyShape, numpyShape]
          rw [ih s h1r h2r]
    | ellipsis =>
      have hrest0 : (rest.filter RawEntry.isEllipsis).length = 0 := by
        simp only [List.filter, RawEntry.isEllipsis, List.length_cons] at h1
        omega
      have h2r : countExplicit rest ≤ shape.length := by
        simpa [countExplicit, List.filter, RawEntry.isEllipsis] using h2
      have hn : normalizeIndex (RawEntry.ellipsis :: rest) shape.length =
          List.replicate (shape.length - countExplicit rest)
              (IndexEntry.slice none none) ++
            normalizeIndex rest
              (shape.length - (shape.length - countExplicit rest)) := by
        simp [normalizeIndex]
      rw [hn, applyShape_replicate_append _ shape _ (Nat.sub_le _ _)]
      have hdroplen : (shape.drop (shape.length - countExplicit rest)).length =
          shape.length - (shape.length - countExplicit rest) := by
        rw [List.length_drop]
      have hlenk : shape.length - (shape.length - countExplicit rest) =
          countExplicit rest := by omega
      simp only [numpyShape]
      congr 1
      rw [← hdroplen]
      exact ih _ (by omega) (by omega)

/-- C1: for every valid NumPy-style index expression (at most one
Ellipsis, no more explicit entries than axes, nonnegative bounds), the
sliced cube data shape equals the shape of `data[i]`, the sliced WCS
pixel dimensionality is the number of non-integer entries of the
normalized index, and the sliced WCS array_shape is the sliced data
shape. -/
theorem getitem_shape_spec (shape : List Nat) (raw : List RawEntry)
    (h1 : (raw.filter RawEntry.isEllipsis).length ≤ 1)
    (h2 : countExplicit raw ≤ shape.length) :
    getitemShape shape raw = numpyShape shape raw ∧
    (getitemWCS shape raw).pixel_n_dim =
      countNonInt (normalizeIndex raw shape.length) ∧
    (getitemWCS shape raw).array_shape = getitemShape shape raw :=
  ⟨normalized_eq_numpy raw shape h1 h2, rfl, rfl⟩

/-- Witness for C1 at the test item `cube[1, ...]` on a 2-by-3-by-4
cube. -/
theorem getitem_shape_spec_witness :
    getitemShape [2, 3, 4] [RawEntry.entry (IndexEntry.int 1), RawEntry.ellipsis] =
      numpyShape [2, 3, 4] [RawEntry.entry (IndexEntry.int 1), RawEntry.ellipsis] ∧
    (getitemWCS [2, 3, 4]
        [RawEntry.entry (IndexEntry.int 1), RawEntry.ellipsis]).pixel_n_dim =
      countNonInt (normalizeIndex
        [RawEntry.entry (IndexEntry.int 1), RawEntry.ellipsis] 3) ∧
    (getitemWCS [2, 3, 4]
        [RawEntry.entry (IndexEntry.int 1), RawEntry.ellipsis]).array_shape =
      getitemShape [2, 3, 4] [RawEntry.entry (IndexEntry.int 1), RawEntry.ellipsis] :=
  getitem_shape_spec [2, 3, 4] _ (by decide) (by decide)

/-- C6: `sanitize_corners` raises, exactly when the lower and upper corner
inputs, after wrapping a non-sequence input into a one-element list, have
different numbers of coordinate objects, a ValueError whose message
reports the two offending lengths; no other error is raised, and when the
lengths agree it returns the corners unchanged as lists. -/
theorem sanitize_corners_length_check {α : Type} (lower upper : CornerInput α) :
    (sanitize_corners [lower, upper] =
        .error (.valueError (corner_length_error_msg
          [lower.toList.length, upper.toList.length])) ↔
      lower.toList.length ≠ upper.toList.length) ∧
    ((∃ msg, sanitize_corners [lower, upper] = .error (.valueError msg)) ↔
      lower.toList.length ≠ upper.toList.length) ∧
    (lower.toList.length = upper.toList.length →
      sanitize_corners [lower, upper] = .ok [lower.toList, upper.toList]) := by
  rw [sanitize_corners_two_eq]
  by_cases h : lower.toList.length = upper.toList.length
  · rw [if_pos h]
    refine ⟨⟨?_, fun hne => absurd h hne⟩, ⟨?_, fun hne => absurd h hne⟩, fun _ => rfl⟩
    · intro hmsg
      cases hmsg
    · rintro ⟨msg, hmsg⟩
      cases hmsg
  · rw [if_neg h]
    exact ⟨⟨fun _ => h, fun _ => rfl⟩, ⟨fun _ => h, fun _ => ⟨_, rfl⟩⟩,
      fun heq => absurd heq h⟩

/-- Witness for C6: mismatched corners of lengths 2 and 1 raise the
ValueError whose message renders those lengths, and two-entry corners of
matching length pass unchanged. -/
theorem sanitize_corners_length_check_witness :
    sanitize_corners [CornerInput.seq [some (1 : ℚ), none], CornerInput.scalar none] =
      .error (.valueError
        ("All corner inputs must have same number of coordinate objects. " ++
          "Lengths of corner objects: [2, 1]")) ∧
    sanitize_corners [CornerInput.seq [some (1 : ℚ)], CornerInput.scalar none] =
      .ok [[some (1 : ℚ)], [none]] := by
  constructor
  · exact ((sanitize_corners_length_check (CornerInput.seq [some (1 : ℚ), none])
      (CornerInput.scalar none)).1.mpr (by decide)).trans (by rfl)
  · exact (sanitize_corners_length_check (CornerInput.seq [some (1 : ℚ)])
      (CornerInput.scalar none)).2.2 rfl

/-- C4: `sanitize_crop_inputs` returns a True no-op flag exactly when at
every position both the lower and the upper corner entry are None, and in
that case returns the corners and WCS untouched; consequently
`crop_by_values` with all-None corners returns the input cube unchanged. -/
theorem crop_all_nones_noop :
    (∀ (α : Type) (lower upper : CornerInput α) (wcs : CropWCS) (noop : Bool)
        (l u : List (Option α)) (w : ResultWCS),
      sanitize_crop_inputs lower upper wcs = .ok (noop, l, u, w) →
      ((noop = true ↔ (lower.toList.all Option.isNone = true ∧
          upper.toList.all Option.isNone = true)) ∧
        (noop = true → l = lower.toList ∧ u = upper.toList ∧
          w = .unchanged wcs))) ∧
    (∀ (cube : VCube) (lower upper : CornerInput ℚ),
      lower.toList.length = upper.toList.length →
      lower.toList.all Option.isNone = true →
      upper.toList.all Option.isNone = true →
      crop_by_values cube lower upper = .ok cube) := by
  constructor
  · intro α lower upper wcs noop l u w h
    unfold sanitize_crop_inputs at h
    rw [sanitize_corners_two_eq] at h
    by_cases hlen : lower.toList.length = upper.toList.length
    · rw [if_pos hlen, except_bind_ok] at h
      simp only [List.getD_cons_zero, List.getD_cons_succ] at h
      rw [zip_isNone_all _ _ hlen] at h
      by_cases hcond : (lower.toList.all Option.isNone &&
          upper.toList.all Option.isNone) = true
      · rw [if_pos hcond] at h
        rw [except_pure] at h
        simp only [Except.ok.injEq, Prod.mk.injEq] at h
        obtain ⟨hn, hl, hu, hw⟩ := h
        have hc12 : lower.toList.all Option.isNone = true ∧
            upper.toList.all Option.isNone = true := by simpa using hcond
        exact ⟨⟨fun _ => hc12, fun _ => hn.symm⟩,
          fun _ => ⟨hl.symm, hu.symm, hw.symm⟩⟩
      · rw [if_neg hcond] at h
        have hrhs : ¬ (lower.toList.all Option.isNone = true ∧
            upper.toList.all Option.isNone = true) := by
          rintro ⟨hc1, hc2⟩
          exact hcond (by rw [hc1, hc2]; rfl)
        have hnoop : noop = false := by
          cases wcs with
          | highLevel wup =>
            dsimp only at h
            rw [except_pure] at h
            simp only [Except.ok.injEq, Prod.mk.injEq] at h
            exact h.1.symm
          | extra ec =>
            dsimp only at h
            by_cases hde : ((List.range ec.ndcube_ndim).filter
                (fun i => i ∉ ec.mapping)).isEmpty = true
            · rw [if_pos hde, except_pure] at h
              simp only [Except.ok.injEq, Prod.mk.injEq] at h
              exact h.1.symm
            · rw [if_neg hde] at h
              cases hmd : make_dummy_wcs ((List.range ec.ndcube_ndim).filter
                  (fun i => i ∉ ec.mapping)).length with
              | error e => rw [hmd, except_bind_error] at h; cases h
              | ok d =>
                rw [hmd, except_bind_ok, except_pure] at h
                simp only [Except.ok.injEq, Prod.mk.injEq] at h
                exact h.1.symm
        subst hnoop
        refine ⟨⟨?_, fun hc => absurd hc hrhs⟩, ?_⟩
        all_goals intro hft; cases hft
    · rw [if_neg hlen, except_bind_error] at h
      cases h
  · intro cube lower upper hlen h1 h2
    unfold crop_by_values
    rw [sanitize_crop_inputs_all_nones lower upper _ hlen h1 h2, except_bind_ok]
    rfl

/-- Witness for C4: a fully unbounded crop of a concrete 1-axis cube
returns an equal cube. -/
theorem crop_all_nones_noop_witness :
    crop_by_values ⟨[4], wl_wcs⟩ (CornerInput.seq [none]) (CornerInput.seq [none]) =
      .ok ⟨[4], wl_wcs⟩ :=
  crop_all_nones_noop.2 ⟨[4], wl_wcs⟩ (CornerInput.seq [none])
    (CornerInput.seq [none]) rfl rfl rfl

/-- C3 (code bug): because the dummy-WCS construction hard-codes length-2
attribute lists, `sanitize_crop_inputs` raises ValueError whenever the
number of cube axes not covered by the extra-coords table is not 2 (here:
a 3D cube with axes 0 and 2 covered, one dummy axis), instead of building
the claimed composite WCS; with exactly two uncovered axes the compound
WCS is built with pixel_n_dim equal to the cube dimensionality and the
corner lists are extended with one None per dummy axis, and with full
coverage the table's own WCS is used without wrapping. -/
theorem sanitize_crop_inputs_dummy_axes :
    (sanitize_crop_inputs (CornerInput.seq [some (1 : ℚ), none])
        (CornerInput.seq [some 2, none])
        (CropWCS.extra ⟨[0, 2], ⟨2, fun _ q => ⌊q⌋⟩, 3⟩) =
      .error (.valueError "attribute length does not match naxis")) ∧
    (∃ w : ResultWCS,
      sanitize_crop_inputs (CornerInput.seq [some (1 : ℚ)])
          (CornerInput.seq [some 2])
          (CropWCS.extra ⟨[1], ⟨1, fun _ q => ⌊q⌋⟩, 3⟩) =
        .ok (false, [some 1, none, none], [some 2, none, none], w) ∧
      w.pixel_n_dim = 3 ∧
      ∃ dummy mapping, w = ResultWCS.compound ⟨1, fun _ q => ⌊q⌋⟩ dummy mapping ∧
        dummy.pixel_n_dim = 2 ∧ mapping = [1, 0, 2]) ∧
    (sanitize_crop_inputs (CornerInput.seq [some (1 : ℚ), none, none])
        (CornerInput.seq [some 2, none, none])
        (CropWCS.extra ⟨[0, 1, 2], ⟨3, fun _ q => ⌊q⌋⟩, 3⟩) =
      .ok (false, [some 1, none, none], [some 2, none, none],
        ResultWCS.ecOwn ⟨3, fun _ q => ⌊q⌋⟩)) :=
  ⟨rfl, ⟨_, rfl, rfl, _, _, rfl, rfl, rfl⟩, rfl⟩

/-- The only exception `resolve_axis` raises is IndexError. -/
theorem resolve_axis_error (wcs : LowWCS) (axis n : Nat) (x y : Option ℚ)
    (e : PyErr) (h : resolve_axis wcs axis n x y = .error e) : e = .indexError := by
  cases x with
  | none =>
    cases y <;> simp only [resolve_axis] at h <;> cases h
  | some lx =>
    cases y with
    | none => simp only [resolve_axis] at h; cases h
    | some ly =>
      simp only [resolve_axis] at h
      by_cases hc : resolved_out_of_range wcs axis n lx ly
      · rw [if_pos hc] at h
        injection h with h2
        exact h2.symm
      · rw [if_neg hc] at h
        cases h

/-- When some axis of the crop window resolves to an invalid or fully
out-of-range index window, resolving the whole index item raises
IndexError. -/
theorem resolve_crop_item_error (wcs : LowWCS) :
    ∀ (shape : List Nat) (lower upper : List (Option ℚ)) (a j : Nat) (lo hi : ℚ),
      j < shape.length → lower.get? j = some (some lo) →
      upper.get? j = some (some hi) →
      resolved_out_of_range wcs (a + j) (shape.getD j 0) lo hi →
      resolve_crop_item wcs a shape lower upper = .error .indexError := by
  intro shape
  induction shape with
  | nil =>
    intro lower upper a j lo hi hj
    exact absurd hj (by simp)
  | cons n s ih =>
    intro lower upper a j lo hi hj hl hu hbad
    cases j with
    | zero =>
      cases lower with
      | nil => cases hl
      | cons x xs =>
        cases upper with
        | nil => cases hu
        | cons y ys =>
          have hx : x = some lo := by simpa using hl
          have hy : y = some hi := by simpa using hu
          subst hx
          subst hy
          have hbad0 : resolved_out_of_range wcs a n lo hi := by simpa using hbad
          unfold resolve_crop_item
          rw [List.headD_cons, List.headD_cons]
          simp only [resolve_axis]
          rw [if_pos hbad0, except_bind_error]
    | succ j =>
      cases lower with
      | nil => cases hl
      | cons x xs =>
        cases upper with
        | nil => cases hu
        | cons y ys =>
          have hl2 : xs.get? j = some (some lo) := by simpa using hl
          have hu2 : ys.get? j = some (some hi) := by simpa using hu
          have hj2 : j < s.length := by simpa using hj
          have hbad2 : resolved_out_of_range wcs (a + 1 + j) (s.getD j 0) lo hi := by
            have harith : a + 1 + j = a + (j + 1) := by omega
            rw [harith]
            simpa using hbad
          have hrest := ih xs ys (a + 1) j lo hi hj2 hl2 hu2 hbad2
          unfold resolve_crop_item
          rw [List.headD_cons, List.headD_cons, List.tail_cons, List.tail_cons]
          cases hax : resolve_axis wcs a n x y with
          | error e =>
            rw [except_bind_error, resolve_axis_error wcs a n x y e hax]
          | ok entry =>
            rw [except_bind_ok, hrest, except_bind_error]

/-- C5: when some axis resolves through the inverse WCS transform to a
window that is inverted or lies fully out of the array index range,
`crop_by_values` raises IndexError and no cube is returned. -/
theorem crop_by_values_indexerror (cube : VCube) (lower upper : CornerInput ℚ)
    (hlen : lower.toList.length = upper.toList.length) (j : Nat) (lo hi : ℚ)
    (hl : lower.toList.get? j = some (some lo))
    (hu : upper.toList.get? j = some (some hi))
    (hj : j < cube.shape.length)
    (hbad : resolved_out_of_range cube.wcs j (cube.shape.getD j 0) lo hi) :
    crop_by_values cube lower upper = .error PyErr.indexError := by
  have hmem : (some lo) ∈ lower.toList := List.get?_mem hl
  have hallf : lower.toList.all Option.isNone = false := by
    cases hbool : lower.toList.all Option.isNone with
    | false => rfl
    | true =>
      have := List.all_eq_true.mp hbool _ hmem
      simp at this
  have hsan : sanitize_crop_inputs lower upper (CropWCS.highLevel cube.wcs) =
      .ok (false, lower.toList, upper.toList,
        .unchanged (.highLevel cube.wcs)) := by
    unfold sanitize_crop_inputs
    rw [sanitize_corners_two_eq, if_pos hlen, except_bind_ok]
    simp only [List.getD_cons_zero, List.getD_cons_succ]
    rw [zip_isNone_all _ _ hlen]
    rw [if_neg (by rw [hallf]; simp)]
    rfl
  unfold crop_by_values
  rw [hsan, except_bind_ok]
  dsimp only
  rw [if_neg (by simp)]
  rw [resolve_crop_item_error cube.wcs cube.shape lower.toList upper.toList 0 j lo hi
    hj hl hu (by simpa using hbad), except_bind_error]

/-- Witness for C5: cropping the 4-pixel wavelength cube by the negated
wavelength interval resolves to indices −105..−102, fully out of range,
and raises IndexError. -/
theorem crop_by_values_indexerror_witness :
    crop_by_values ⟨[4], wl_wcs⟩
        (CornerInput.seq [some (-(102 / 10 ^ 11) : ℚ)])
        (CornerInput.seq [some (-(108 / 10 ^ 11) : ℚ)]) =
      .error PyErr.indexError :=
  crop_by_values_indexerror ⟨[4], wl_wcs⟩ _ _ rfl 0 (-(102 / 10 ^ 11))
    (-(108 / 10 ^ 11)) rfl rfl (by decide)
    (by norm_num [resolved_out_of_range, wl_wcs, int_min, int_max])

/-- C2: for the 3D cube whose WCS correlates two pixel axes jointly with
celestial latitude/longitude and the third pixel axis independently with
wavelength, integer-indexing away one celestial pixel axis (array axis 0,
i.e. pixel axis 2) yields a WCS with pixel_n_dim 2 and world_n_dim 3, the
world physical types being exactly latitude, longitude and wavelength, and
the correlation matrix [[T, F], [F, T], [F, T]]: the wavelength pixel axis
correlates only with wavelength, and the remaining celestial pixel axis
with both celestial world axes and not with wavelength. -/
theorem slicing_split_celestial :
    slicedPixelNDim [true, true, false] = 2 ∧
    (sliceCorrWCS wcs3d_ln_lt_l [true, true, false]).world_n_dim = 3 ∧
    (sliceCorrWCS wcs3d_ln_lt_l [true, true, false]).world_axis_physical_types =
      ["em.wl", "custom:pos.helioprojective.lat", "custom:pos.helioprojective.lon"] ∧
    (sliceCorrWCS wcs3d_ln_lt_l [true, true, false]).axis_correlation_matrix =
      [[true, false], [false, true], [false, true]] := by
  refine ⟨rfl, rfl, rfl, rfl⟩

/-- C7: the pixel-edge grid is the centre grid offset by −0.5 and +0.5, so
an axis with n pixels yields n+1 edge values; for the 4-pixel synthetic
wavelength axis with centre values 1.02e-9 .. 1.08e-9 m the edge values
are 1.01e-9, 1.03e-9, 1.05e-9, 1.07e-9, 1.09e-9 m. -/
theorem axis_world_coords_edges_spec :
    (∀ n : Nat, (axis_world_coords_edges n).length = n + 1) ∧
    axis_world_coords_centers 4 =
      [102 / 10 ^ 11, 104 / 10 ^ 11, 106 / 10 ^ 11, 108 / 10 ^ 11] ∧
    axis_world_coords_edges 4 =
      [101 / 10 ^ 11, 103 / 10 ^ 11, 105 / 10 ^ 11, 107 / 10 ^ 11, 109 / 10 ^ 11] := by
  refine ⟨fun n => ?_, ?_, ?_⟩
  · unfold axis_world_coords_edges
    rw [List.length_map, List.length_range]
  · norm_num [axis_world_coords_centers, wavelength_of_pixel, List.range_succ]
  · norm_num [axis_world_coords_edges, wavelength_of_pixel, List.range_succ]

/-- C10: `_determine_sequence_units` returns a None unit whenever it
returns None sequence units, discarding any caller-supplied unit in that
case; hence the `raise ValueError(NON_COMPATIBLE_UNIT_MESSAGE)` branch of
`_plot_1D_sequence` and `_plot_2D_sequence_as_1Dline`, which requires None
sequence units together with a non-None unit, can never execute. -/
theorem determine_sequence_units_none_unit_none (data : List SubCube)
    (unit : Option String) (r : Option (List String) × Option String)
    (h : _determine_sequence_units data unit = .ok r) (hnone : r.1 = none) :
    r.2 = none := by
  unfold _determine_sequence_units at h
  cases hu : _get_all_cube_units data with
  | error e =>
    rw [hu] at h
    cases h
    rfl
  | ok l =>
    rw [hu] at h
    cases unit with
    | some u => cases h; cases hnone
    | none =>
      cases l with
      | nil => cases h
      | cons u0 us => cases h; cases hnone

/-- Witness for C10 at a sequence whose single cube has no unit set and a
caller-supplied unit of metres. -/
theorem determine_sequence_units_none_unit_none_witness :
    _determine_sequence_units [⟨[1], none, none⟩] (some "m") = .ok (none, none) ∧
    ((none, none) : Option (List String) × Option String).2 = none :=
  ⟨rfl, determine_sequence_units_none_unit_none [⟨[1], none, none⟩] (some "m")
    (none, none) rfl rfl⟩

/-- C9: in the branch where not all sub-cubes have a unit set,
`_plot_2D_sequence_as_1Dline` yields None only when every uncertainty is
None and otherwise concatenates the per-cube uncertainties with every None
entry replaced by a zero array of that sub-cube's length, whereas
`_plot_1D_sequence` yields None only when every uncertainty is None and
otherwise passes the mixed array through without zero-filling. -/
theorem plot_sequence_yerror_spec (cubes : List SubCube) :
    (_plot_2D_sequence_as_1Dline_yerror cubes = none ↔
      ∀ c ∈ cubes, c.uncertainty = none) ∧
    (_plot_1D_sequence_yerror cubes = none ↔ ∀ c ∈ cubes, c.uncertainty = none) ∧
    ((∃ c ∈ cubes, c.uncertainty ≠ none) →
      _plot_2D_sequence_as_1Dline_yerror cubes =
        some (cubes.map
          (fun c => c.uncertainty.getD (List.replicate c.data.length 0))).flatten ∧
      _plot_1D_sequence_yerror cubes = some (cubes.map (fun c => c.uncertainty))) := by
  have hall : ((cubes.map (fun c => c.uncertainty)).all Option.isNone = true) ↔
      ∀ c ∈ cubes, c.uncertainty = none := by
    simp [List.all_eq_true, Option.isNone_iff_eq_none]
  simp only [_plot_2D_sequence_as_1Dline_yerror, _plot_1D_sequence_yerror]
  by_cases h : (cubes.map (fun c => c.uncertainty)).all Option.isNone = true
  · simp only [if_pos h]
    refine ⟨⟨fun _ => hall.mp h, fun _ => trivial⟩,
      ⟨fun _ => hall.mp h, fun _ => trivial⟩, ?_⟩
    rintro ⟨c0, hc0, hc0u⟩
    exact absurd (hall.mp h c0 hc0) hc0u
  · simp only [if_neg h]
    refine ⟨⟨fun hcontra => absurd hcontra (Option.some_ne_none _),
        fun hforall => absurd (hall.mpr hforall) h⟩,
      ⟨fun hcontra => absurd hcontra (Option.some_ne_none _),
        fun hforall => absurd (hall.mpr hforall) h⟩, ?_⟩
    rintro ⟨c0, hc0, hc0u⟩
    refine ⟨?_, by trivial⟩
    by_cases hany : (cubes.map (fun c => c.uncertainty)).any Option.isNone = true
    · rw [if_pos hany]
    · rw [if_neg hany]
      have hmaps : cubes.map (fun c => c.uncertainty.getD []) =
          cubes.map (fun c => c.uncertainty.getD (List.replicate c.data.length 0)) := by
        apply List.map_congr_left
        intro c hc
        cases hcu : c.uncertainty with
        | none =>
          exact absurd (List.any_eq_true.mpr
            ⟨c.uncertainty, List.mem_map_of_mem _ hc, by simp [hcu]⟩) hany
        | some a => rfl
      rw [hmaps]

/-- Witness for C9 at a two-cube sequence with one missing uncertainty:
the 2D path zero-fills the missing entry to the sub-cube length, the 1D
path passes the mixed array through. -/
theorem plot_sequence_yerror_spec_witness :
    _plot_2D_sequence_as_1Dline_yerror
        [⟨[1, 2], none, none⟩, ⟨[3], none, some [5]⟩] = some [0, 0, 5] ∧
    _plot_1D_sequence_yerror [⟨[1, 2], none, none⟩, ⟨[3], none, some [5]⟩] =
      some [none, some [5]] := by
  have h := (plot_sequence_yerror_spec
      [⟨[1, 2], none, none⟩, ⟨[3], none, some [5]⟩]).2.2
      ⟨⟨[3], none, some [5]⟩, by simp, by simp⟩
  exact ⟨h.1.trans (by decide), h.2.trans (by decide)⟩

/-- Reading below the old heap length is unaffected by an allocation. -/
theorem store_read_append {α : Type} (heap : List (List α)) (v : List α) (a : Nat)
    (h : a < heap.length) :
    (Store.mk (heap ++ [v]) : Store α).read a = (Store.mk heap : Store α).read a := by
  unfold Store.read
  exact List.getD_append _ _ _ _ h

/-- Reading an address other than the written one is unaffected by a
write. -/
theorem store_read_write_ne {α : Type} (s : Store α) (i : Nat) (v : List α)
    (a : Nat) (h : a ≠ i) : (s.write i v).read a = s.read a := by
  unfold Store.write Store.read
  rw [List.getD_eq_getElem?_getD, List.getD_eq_getElem?_getD,
    List.getElem?_set_ne (Ne.symm h)]

/-- C8: the crop-input sanitization never mutates the caller's corner
lists: `sanitize_corners` copies each corner into a fresh list, so the
in-place None-extension inside `sanitize_crop_inputs` touches only the
fresh addresses; every list present in the heap before the call, the
caller's corner arguments included, reads unchanged afterwards, whether
the call succeeds or raises. -/
theorem sanitize_crop_inputs_no_mutation {α : Type} (s : Store (Option α))
    (lower_addr upper_addr : Nat) (wcs : CropWCS) :
    ∀ a, a < s.heap.length →
      (sanitize_crop_inputs_heap s lower_addr upper_addr wcs).1.read a = s.read a := by
  intro a ha
  have hread2 : ∀ v1 v2 : List (Option α),
      (Store.mk ((s.heap ++ [v1]) ++ [v2]) : Store (Option α)).read a = s.read a := by
    intro v1 v2
    rw [store_read_append ((s.heap ++ [v1])) v2 a
      (by rw [List.length_append]; omega)]
    exact store_read_append s.heap v1 a ha
  have hne1 : a ≠ s.heap.length := by omega
  have hne2 : ∀ x : List (Option α), a ≠ (s.heap ++ [x]).length := by
    intro x
    rw [List.length_append, List.length_singleton]
    omega
  have hextend : ∀ (st : Store (Option α)) (i1 i2 : Nat) (t1 t2 : List (Option α)),
      st.read a = s.read a → a ≠ i1 → a ≠ i2 →
      ((st.extend i1 t1).extend i2 t2).read a = s.read a := by
    intro st i1 i2 t1 t2 hst hni1 hni2
    unfold Store.extend
    rw [store_read_write_ne _ _ _ _ hni2, store_read_write_ne _ _ _ _ hni1]
    exact hst
  unfold sanitize_crop_inputs_heap
  simp only [Store.alloc]
  split
  · exact hread2 _ _
  · split
    · exact hread2 _ _
    · split
      · exact hread2 _ _
      · split
        · exact hextend _ _ _ _ _ (hread2 _ _) hne1 (hne2 _)
        · split
          · exact hread2 _ _
          · exact hextend _ _ _ _ _ (hread2 _ _) hne1 (hne2 _)

/-- Witness for C8: after a crop-input sanitization that extends the
corners with dummy-axis entries, the caller's corner list at address 0
still reads its original value. -/
theorem sanitize_crop_inputs_no_mutation_witness :
    (sanitize_crop_inputs_heap
        (Store.mk [[some (1 : ℚ)], [some (2 : ℚ)]]) 0 1
        (CropWCS.extra ⟨[1], ⟨1, fun _ q => ⌊q⌋⟩, 3⟩)).1.read 0 = [some (1 : ℚ)] :=
  (sanitize_crop_inputs_no_mutation (Store.mk [[some (1 : ℚ)], [some (2 : ℚ)]]) 0 1
    (CropWCS.extra ⟨[1], ⟨1, fun _ q => ⌊q⌋⟩, 3⟩) 0 (by decide)).trans rfl

end NDCube
